import Mathlib

/-!
Verification development for the Duck repository (src/duck.py), a breadth-first
web crawler with regex extraction and a report writer.

The source file is truncated in places: the crawl loop (`crawl_website`), the
extraction pattern table (`EXTRACTION_PATTERNS`, corrupted at line 24), the
`output`, `loading_animation` and `print_results` helpers are not present in
the file.  Those parts are modelled from the specification (marked
"Modelled from the spec:").  Everything else — `validate_arguments`
(lines 24–41), `main` (lines 73–137) with its exit codes, finally block and
minimal-report safeguard — is translated from the source.
-/

set_option maxRecDepth 8000

namespace Duck

/-- A URL, modelled as a host plus the rest (path/query).  Same-origin means
equal `host`, matching the spec's glossary. -/
structure Url where
  host : String
  path : String
deriving DecidableEq, Repr

/-- A successfully fetched page: its raw body and the hyperlinks it contains,
already resolved to absolute URLs (HTML parsing and URL resolution are
delegated to external collaborators and modelled as part of the fetcher). -/
structure Page where
  body : String
  links : List Url

/-- An extraction category: stable id, display name, and the pattern's
`findall` on a page body. -/
structure Category where
  id : Nat
  name : String
  matcher : String → List String

/-- Crawl Controller state: FIFO frontier of (url, depth) tasks, the visited
set, the accumulated per-category results, plus two traces used to state
properties: `fetched` records every URL for which a fetch was issued, in
order, and `enqueued` records every task ever pushed onto the frontier after
the seed. -/
structure CrawlState where
  frontier : List (Url × Nat)
  visited : List Url
  fetched : List Url
  enqueued : List (Url × Nat)
  results : List (Nat × String × List String)

/-- Insert a match into a category's accumulated list unless already present
(set semantics with stable insertion order). -/
def addMatch (acc : List String) (m : String) : List String :=
  if m ∈ acc then acc else acc ++ [m]

/-- Merge a page's matches for one category into the accumulator. -/
def mergeCategory (acc ms : List String) : List String :=
  ms.foldl addMatch acc

/-- Modelled from the spec: `extract(pageText)` applies each configured
pattern to the raw page text and collects the matches per category. -/
def extract (patterns : List Category) (body : String) : List (Nat × String × List String) :=
  patterns.map (fun c => (c.id, c.name, c.matcher body))

/-- Merge freshly extracted matches into the global accumulator, category by
category (both lists are indexed by the same pattern table). -/
def mergeResults (acc newr : List (Nat × String × List String)) :
    List (Nat × String × List String) :=
  List.zipWith (fun a n => (a.1, a.2.1, mergeCategory a.2.2 n.2.2)) acc newr

/-- Modelled from the spec: the explicit safety cap bounding the total number
of frontier tasks processed in one run (spec §4.1 termination). -/
def MAX_CRAWL_STEPS : Nat := 1000

/-- Modelled from the spec: one dequeue of the crawl loop (spec §4.1), taken
when the dequeued task `(url, depth)` is not yet visited.  Marks the URL
visited, issues the fetch; on failure the page is skipped (no extraction, no
enqueue); on success the extracted matches are merged and, when
`depth < maxDepth`, each link of the page resolving to the seed's host and not
yet visited is enqueued as `(link, depth + 1)`. -/
def crawlStep (fetch : Url → Option Page) (patterns : List Category)
    (seedHost : String) (maxDepth : Nat) (st : CrawlState)
    (url : Url) (depth : Nat) (rest : List (Url × Nat)) : CrawlState :=
  let visited1 := url :: st.visited
  match fetch url with
  | none =>
      { st with frontier := rest, visited := visited1, fetched := st.fetched ++ [url] }
  | some page =>
      let newLinks :=
        if depth < maxDepth then
          (page.links.filter (fun l => decide (l.host = seedHost ∧ l ∉ visited1))).map
            (fun l => (l, depth + 1))
        else []
      { frontier := rest ++ newLinks
        visited := visited1
        fetched := st.fetched ++ [url]
        enqueued := st.enqueued ++ newLinks
        results := mergeResults st.results (extract patterns page.body) }

/-- Modelled from the spec: the crawl loop (spec §4.1).  Dequeue a task; if
already visited, skip it without fetching; otherwise perform `crawlStep`.
`fuel` is the remaining step budget of the safety cap. -/
def crawlLoop (fetch : Url → Option Page) (patterns : List Category)
    (seedHost : String) (maxDepth : Nat) : Nat → CrawlState → CrawlState
  | 0, st => st
  | fuel + 1, st =>
      match st.frontier with
      | [] => st
      | (url, depth) :: rest =>
          if url ∈ st.visited then
            crawlLoop fetch patterns seedHost maxDepth fuel { st with frontier := rest }
          else
            crawlLoop fetch patterns seedHost maxDepth fuel
              (crawlStep fetch patterns seedHost maxDepth st url depth rest)

/-- Modelled from the spec: `crawl(seedURL, maxDepth)` — breadth-first crawl
seeded with `(seed, 0)`, restricted to the seed's host, bounded by
`MAX_CRAWL_STEPS`. -/
def crawl_website (fetch : Url → Option Page) (patterns : List Category)
    (seed : Url) (maxDepth : Nat) : CrawlState :=
  crawlLoop fetch patterns seed.host maxDepth MAX_CRAWL_STEPS
    { frontier := [(seed, 0)], visited := [], fetched := [], enqueued := [],
      results := patterns.map (fun c => (c.id, c.name, [])) }

/-- Characters admitted inside an email token (letters, digits, and the
punctuation classes of the standard email pattern). -/
def isEmailChar (c : Char) : Bool :=
  c.isAlphanum || c == '.' || c == '_' || c == '%' || c == '+' || c == '-' || c == '@'

/-- Split a character stream into maximal runs of email characters; `cur` is
the current run, reversed. -/
def splitTokens : List Char → List Char → List (List Char)
  | [], cur => if cur.isEmpty then [] else [cur.reverse]
  | c :: cs, cur =>
      if isEmailChar c then splitTokens cs (c :: cur)
      else if cur.isEmpty then splitTokens cs [] else cur.reverse :: splitTokens cs []

/-- A token is email-shaped when it has a nonempty local part, exactly one
`@`, and a domain containing a dot. -/
def isEmailToken (t : List Char) : Bool :=
  match t.dropWhile (fun c => c != '@') with
  | '@' :: domain =>
      !(t.takeWhile (fun c => c != '@')).isEmpty &&
        !domain.isEmpty && domain.contains '.' && !domain.contains '@'
  | _ => false

/-- Modelled from the spec: findall of the standard email address pattern
(the regex literal at src/duck.py line 24 is corrupted; the spec fixes
category 2 as "Email Addresses" with the standard pattern). -/
def emailFindAll (s : String) : List String :=
  ((splitTokens s.data []).filter isEmailToken).map (fun t => String.mk t)

/-- Modelled from the spec: the extraction pattern table (corrupted at
src/duck.py lines 22–24); only category 2, "Email Addresses", is visible in
the source. -/
def EXTRACTION_PATTERNS : List Category :=
  [{ id := 2, name := "Email Addresses", matcher := emailFindAll }]

/-- The seed of the dedup scenario of spec §8. -/
def scenarioSeed : Url := { host := "target.com", path := "/" }

/-- A one-page world whose only page body repeats the same email twice
(spec §8 scenario). -/
def scenarioFetch (u : Url) : Option Page :=
  if u = scenarioSeed then
    some { body := "contact: a@b.com and a@b.com", links := [] }
  else none

/-- A one-page world for the same-origin scenario: the seed page links to one
same-host page and one external-host page. -/
def originFetch (u : Url) : Option Page :=
  if u = scenarioSeed then
    some { body := "", links := [{ host := "target.com", path := "/a" },
                                 { host := "evil.com", path := "/x" }] }
  else none

/-- A filesystem path: the containing directory plus the file name.
`os.path.dirname` is the `dir` component; `os.path.abspath` is the identity
in this model. -/
structure FsPath where
  dir : String
  file : String
deriving DecidableEq, Repr

/-- The parsed command-line arguments (src/duck.py lines 43–69):
`--url`, `--depth`, `--output`. -/
structure Args where
  url : String
  depth : Nat
  output : FsPath
deriving DecidableEq, Repr

/-- The filesystem visible to the process: which directories exist, which
paths can be opened for writing/appending, and the current file contents. -/
structure FS where
  existingDirs : List String
  appendable : List FsPath
  files : List (FsPath × String)
deriving DecidableEq, Repr

/-- Content of the file at `p`, when one exists. -/
def fsGet (fs : FS) (p : FsPath) : Option String :=
  (fs.files.find? (fun e => decide (e.1 = p))).map (fun e => e.2)

/-- Overwrite (or create) the file at `p` with content `c` — `open(p, 'w')`
followed by the writes of the run. -/
def fsSet (fs : FS) (p : FsPath) (c : String) : FS :=
  { fs with files := fs.files.filter (fun e => decide (e.1 ≠ p)) ++ [(p, c)] }

/-- Console messages of one run, as tags. -/
inductive Msg where
  | errConfig
  | errDirMissing
  | errNotWritable
  | configFailed (code : Nat)
  | banner
  | report
  | unexpectedError (e : String)
  | savedFinalized
  | warnMinimalReport
deriving DecidableEq, Repr

/-- Outcome of `validate_arguments`: either the validation passed (with its
filesystem side effect) or the process is exiting with a code after printing
a message. -/
inductive ValidateOutcome where
  | ok (fs : FS)
  | exit (code : Nat) (msg : Msg)
deriving Repr

/-- Translated from src/duck.py lines 24–41.  The configuration check whose
condition is corrupted at line 24 is abstracted by the boolean `cfgOk`
(Modelled from the spec: §7(a) configuration errors — invalid/missing
required arguments); it exits with code 1 (line 25).  The output checks are
literal: a named, non-existing output directory exits with code 3
(lines 31–33); an output path that cannot be opened for appending exits with
code 3 (lines 35–41); a successful append-mode open creates an empty file at
the path when none exists. -/
def validate_arguments (cfgOk : Bool) (fs : FS) (out : FsPath) : ValidateOutcome :=
  if ¬ cfgOk then .exit 1 .errConfig
  else if out.dir ≠ "" ∧ out.dir ∉ fs.existingDirs then .exit 3 .errDirMissing
  else if out ∉ fs.appendable then .exit 3 .errNotWritable
  else .ok { fs with
    files := if (fsGet fs out).isSome then fs.files else fs.files ++ [(out, "")] }

/-- The header block written to the output file at startup
(src/duck.py lines 96–97). -/
def reportHeader (ctime url : String) (depth : Nat) : String :=
  "Started analysis at: " ++ ctime ++ "\n" ++
    "Target: " ++ url ++ " (Depth: " ++ toString depth ++ ")\n"

/-- The line appended to the output file by the unexpected-error handler
(src/duck.py line 115). -/
def runtimeErrorLine (e : String) : String :=
  "\nAn unexpected runtime error occurred: " ++ e ++ "\n"

/-- Modelled from the spec: `print_results` is missing from src/duck.py; per
§4.3 the reporter writes, per category, a header and the unique matches (or a
none-found notice). -/
def renderReport (results : List (Nat × String × List String)) : String :=
  results.foldl (fun acc cat =>
    acc ++ "=== " ++ cat.2.1 ++ " ===\n" ++
      (if cat.2.2.isEmpty then "No matches found.\n"
       else cat.2.2.foldl (fun s m => s ++ m ++ "\n") "")) ""

/-- The minimal fallback report (src/duck.py lines 128–130). -/
def fallbackReport (url : String) : String :=
  "XERON CRAWLER REPORT\n\n" ++
    "The crawl finished with no substantial data acquired. Target URL: " ++ url ++ ".\n" ++
    "Check network connection or ensure the target is online."

/-- How the crawl stage of one run ends: normal completion, or an uncaught
exception.  `written` is what the crawl stage wrote to the already-open
output file before ending (Modelled from the spec: `crawl_website` is
missing from src/duck.py and per §7(c) flushes gathered data to the file
handle it is passed). -/
inductive CrawlOutcome where
  | ok (written : String) (results : List (Nat × String × List String))
  | err (written : String) (e : String)
deriving DecidableEq, Repr

/-- Observable outcome of one `main()` run. -/
structure MainResult where
  exitCode : Nat
  fs : FS
  console : List Msg
  crawlAttempted : Bool
  fileOpened : Bool
deriving Repr

/-- Translated from src/duck.py lines 73–137: `main()` with its
try/except/finally structure.  On a SystemExit from validation the handler
reprints and re-exits with the same code (lines 109–113); the file is never
opened and `url_input` is still "N/A", so the finally block does nothing
more.  On the normal path the file holds the header block, whatever the
crawl wrote, and the rendered report; on an uncaught exception the handler
appends the error line to the file and exits with code 4 (lines 114–116).
Either way the finally block closes the handle, prints the saved-and-
finalized message (lines 117–120), and overwrites the file with the minimal
fallback report when its size is below 100 bytes (lines 122–137). -/
def mainRun (cfgOk : Bool) (fs0 : FS) (args : Args) (ctime : String)
    (outcome : CrawlOutcome) : MainResult :=
  match validate_arguments cfgOk fs0 args.output with
  | .exit code msg =>
      { exitCode := code, fs := fs0, console := [msg, .configFailed code],
        crawlAttempted := false, fileOpened := false }
  | .ok fs1 =>
      let hdr := reportHeader ctime args.url args.depth
      match outcome with
      | .ok written results =>
          let content := hdr ++ written ++ renderReport results
          let fs2 := fsSet fs1 args.output content
          let small := content.length < 100
          { exitCode := 0
            fs := if small then fsSet fs2 args.output (fallbackReport args.url) else fs2
            console := [.banner, .report, .savedFinalized]
              ++ (if small then [.warnMinimalReport] else [])
            crawlAttempted := true
            fileOpened := true }
      | .err written e =>
          let content := hdr ++ written ++ runtimeErrorLine e
          let fs2 := fsSet fs1 args.output content
          let small := content.length < 100
          { exitCode := 4
            fs := if small then fsSet fs2 args.output (fallbackReport args.url) else fs2
            console := [.banner, .unexpectedError e, .savedFinalized]
              ++ (if small then [.warnMinimalReport] else [])
            crawlAttempted := true
            fileOpened := true }

/-- A concrete output path, filesystem, arguments and clock used by the
closed counterexamples and witnesses. -/
def demoOut : FsPath := { dir := "/reports", file := "roxen.txt" }

def demoFS : FS := { existingDirs := ["/reports"], appendable := [demoOut], files := [] }

def demoArgs : Args := { url := "http://example.com", depth := 5, output := demoOut }

def demoCtime : String := "Sun Oct 12 00:00:00 2025"

/-- An output path whose directory does not exist in `demoFS`. -/
def demoBadOut : FsPath := { dir := "/nonexistent", file := "roxen.txt" }

def demoBadArgs : Args := { url := "http://example.com", depth := 5, output := demoBadOut }

/-- An output path in an existing directory that cannot be opened for
appending. -/
def demoLockedOut : FsPath := { dir := "/reports", file := "locked.txt" }

def demoLockedArgs : Args := { url := "http://example.com", depth := 5, output := demoLockedOut }

end Duck

namespace Duck

theorem crawlLoop_frontier_nil (fetch : Url → Option Page) (patterns : List Category)
    (seedHost : String) (maxDepth fuel : Nat) (st : CrawlState) (h : st.frontier = []) :
    crawlLoop fetch patterns seedHost maxDepth fuel st = st := by
  cases fuel with
  | zero => rfl
  | succ fuel => rw [crawlLoop, h]

theorem crawlStep_fetched (fetch : Url → Option Page) (patterns : List Category)
    (seedHost : String) (maxDepth : Nat) (st : CrawlState) (url : Url) (depth : Nat)
    (rest : List (Url × Nat)) :
    (crawlStep fetch patterns seedHost maxDepth st url depth rest).fetched
        = st.fetched ++ [url] ∧
      (crawlStep fetch patterns seedHost maxDepth st url depth rest).visited
        = url :: st.visited := by
  unfold crawlStep
  cases fetch url <;> simp

theorem nodup_append_single {α : Type} {l : List α} {a : α} (h : l.Nodup) (ha : a ∉ l) :
    (l ++ [a]).Nodup := by
  simp [List.nodup_append, h, ha]

/-- The crawl loop preserves the invariant that the fetch trace has no
duplicates and only contains visited URLs. -/
theorem crawlLoop_fetched_inv (fetch : Url → Option Page) (patterns : List Category)
    (seedHost : String) (maxDepth : Nat) (fuel : Nat) :
    ∀ st : CrawlState, st.fetched.Nodup → (∀ u ∈ st.fetched, u ∈ st.visited) →
      ((crawlLoop fetch patterns seedHost maxDepth fuel st).fetched.Nodup ∧
       ∀ u ∈ (crawlLoop fetch patterns seedHost maxDepth fuel st).fetched,
         u ∈ (crawlLoop fetch patterns seedHost maxDepth fuel st).visited) := by
  induction fuel with
  | zero =>
      intro st h1 h2
      exact ⟨h1, h2⟩
  | succ fuel ih =>
      intro st h1 h2
      rw [crawlLoop]
      match hfr : st.frontier with
      | [] => exact ⟨h1, h2⟩
      | (url, depth) :: rest =>
          by_cases hv : url ∈ st.visited
          · simp only [hv, if_true]
            exact ih _ h1 h2
          · simp only [hv, if_false]
            apply ih
            · rw [(crawlStep_fetched fetch patterns seedHost maxDepth st url depth rest).1]
              exact nodup_append_single h1 (fun hm => hv (h2 url hm))
            · intro u hu
              rw [(crawlStep_fetched fetch patterns seedHost maxDepth st url depth rest).1]
                at hu
              rw [(crawlStep_fetched fetch patterns seedHost maxDepth st url depth rest).2]
              rcases List.mem_append.mp hu with hu | hu
              · exact List.mem_cons_of_mem _ (h2 u hu)
              · simp at hu
                simp [hu]

/-- The crawl loop preserves the host invariant: every frontier task, every
enqueued task and every fetched URL has the seed's host, and enqueued tasks
have positive depth. -/
theorem crawlLoop_host_inv (fetch : Url → Option Page) (patterns : List Category)
    (seedHost : String) (maxDepth : Nat) (fuel : Nat) :
    ∀ st : CrawlState,
      (∀ p ∈ st.frontier, p.1.host = seedHost) →
      (∀ p ∈ st.enqueued, p.1.host = seedHost ∧ 1 ≤ p.2) →
      (∀ u ∈ st.fetched, u.host = seedHost) →
      ((∀ p ∈ (crawlLoop fetch patterns seedHost maxDepth fuel st).enqueued,
          p.1.host = seedHost ∧ 1 ≤ p.2) ∧
       ∀ u ∈ (crawlLoop fetch patterns seedHost maxDepth fuel st).fetched,
         u.host = seedHost) := by
  induction fuel with
  | zero =>
      intro st _ h2 h3
      exact ⟨h2, h3⟩
  | succ fuel ih =>
      intro st h1 h2 h3
      rw [crawlLoop]
      match hfr : st.frontier with
      | [] => exact ⟨h2, h3⟩
      | (url, depth) :: rest =>
          have hhead : url.host = seedHost := h1 (url, depth) (by rw [hfr]; simp)
          have hrest : ∀ p ∈ rest, p.1.host = seedHost := by
            intro p hp
            exact h1 p (by rw [hfr]; exact List.mem_cons_of_mem _ hp)
          by_cases hv : url ∈ st.visited
          · simp only [hv, if_true]
            exact ih _ hrest h2 h3
          · simp only [hv, if_false]
            apply ih
            · unfold crawlStep
              cases hfu : fetch url with
              | none => simpa using hrest
              | some page =>
                  simp only
                  intro p hp
                  rcases List.mem_append.mp hp with hp | hp
                  · exact hrest p hp
                  · split at hp
                    · rcases List.mem_map.mp hp with ⟨l, hl, hpl⟩
                      have := (List.mem_filter.mp hl).2
                      simp only [decide_eq_true_eq] at this
                      rw [← hpl]
                      exact this.1
                    · simp at hp
            · unfold crawlStep
              cases hfu : fetch url with
              | none => simpa using h2
              | some page =>
                  simp only
                  intro p hp
                  rcases List.mem_append.mp hp with hp | hp
                  · exact h2 p hp
                  · split at hp
                    · rcases List.mem_map.mp hp with ⟨l, hl, hpl⟩
                      have := (List.mem_filter.mp hl).2
                      simp only [decide_eq_true_eq] at this
                      rw [← hpl]
                      exact ⟨this.1, Nat.le_add_left 1 depth⟩
                    · simp at hp
            · unfold crawlStep
              cases hfu : fetch url with
              | none =>
                  simp only
                  intro u hu
                  rcases List.mem_append.mp hu with hu | hu
                  · exact h3 u hu
                  · simp at hu; simp [hu, hhead]
              | some page =>
                  simp only
                  intro u hu
                  rcases List.mem_append.mp hu with hu | hu
                  · exact h3 u hu
                  · simp at hu; simp [hu, hhead]

/-- C1: over a full run, the list of fetched URLs has no duplicates; and a
dequeued task whose URL is already visited is skipped — the state is the same
as continuing with the rest of the frontier, with no fetch recorded. -/
theorem fetched_at_most_once (fetch : Url → Option Page) (patterns : List Category)
    (seed : Url) (maxDepth : Nat) :
    (crawl_website fetch patterns seed maxDepth).fetched.Nodup ∧
    ∀ (st : CrawlState) (u : Url) (d : Nat) (rest : List (Url × Nat)) (fuel : Nat),
      st.frontier = (u, d) :: rest → u ∈ st.visited →
      crawlLoop fetch patterns seed.host maxDepth (fuel + 1) st
        = crawlLoop fetch patterns seed.host maxDepth fuel { st with frontier := rest } := by
  constructor
  · exact (crawlLoop_fetched_inv fetch patterns seed.host maxDepth MAX_CRAWL_STEPS
      _ (by simp) (by simp)).1
  · intro st u d rest fuel hfr hv
    rw [crawlLoop, hfr]
    simp [hv]

/-- C1 witness: a concrete skipped dequeue of an already-visited URL. -/
theorem fetched_at_most_once_witness :
    crawlLoop (fun _ => none) [] (Url.mk "target.com" "/").host 0 1
        ⟨[(Url.mk "target.com" "/", 0)], [Url.mk "target.com" "/"], [], [], []⟩
      = crawlLoop (fun _ => none) [] (Url.mk "target.com" "/").host 0 0
        ⟨[], [Url.mk "target.com" "/"], [], [], []⟩ :=
  (fetched_at_most_once (fun _ => none) [] (Url.mk "target.com" "/") 0).2
    ⟨[(Url.mk "target.com" "/", 0)], [Url.mk "target.com" "/"], [], [], []⟩
    (Url.mk "target.com" "/") 0 [] 0 rfl (by decide)

/-- C2: with maxDepth = 0 exactly one fetch is issued (the seed) and nothing
is ever enqueued beyond the seed task. -/
theorem depth_zero_only_seed (fetch : Url → Option Page) (patterns : List Category)
    (seed : Url) :
    (crawl_website fetch patterns seed 0).fetched = [seed] ∧
    (crawl_website fetch patterns seed 0).enqueued = [] := by
  unfold crawl_website MAX_CRAWL_STEPS
  rw [show (1000 : Nat) = 999 + 1 from rfl, crawlLoop]
  simp only [List.mem_nil_iff, if_false]
  cases hfu : fetch seed with
  | none =>
      rw [crawlLoop_frontier_nil]
      · simp [crawlStep, hfu]
      · simp [crawlStep, hfu]
  | some page =>
      rw [crawlLoop_frontier_nil]
      · simp [crawlStep, hfu]
      · simp [crawlStep, hfu]

/-- C3: over a full run, every task ever enqueued has the seed's host and a
positive depth (links are enqueued as (link, depth + 1)), and consequently
every fetched URL has the seed's host. -/
theorem cross_host_never_enqueued (fetch : Url → Option Page) (patterns : List Category)
    (seed : Url) (maxDepth : Nat) :
    (∀ p ∈ (crawl_website fetch patterns seed maxDepth).enqueued,
        p.1.host = seed.host ∧ 1 ≤ p.2) ∧
    (∀ u ∈ (crawl_website fetch patterns seed maxDepth).fetched,
        u.host = seed.host) := by
  exact crawlLoop_host_inv fetch patterns seed.host maxDepth MAX_CRAWL_STEPS _
    (by simp) (by simp) (by simp)

/-- C3 witness: in the two-link scenario the same-host link is enqueued at
depth 1 with the seed's host. -/
theorem cross_host_never_enqueued_witness :
    (Url.mk "target.com" "/a").host = scenarioSeed.host ∧
      1 ≤ (((Url.mk "target.com" "/a"), 1) : Url × Nat).2 :=
  (cross_host_never_enqueued originFetch EXTRACTION_PATTERNS scenarioSeed 1).1
    (Url.mk "target.com" "/a", 1) (by decide)

/-- C4: a failed fetch is non-fatal: the dequeued page is marked visited and
recorded as a fetch attempt, but no extraction is merged and nothing is
enqueued, and the crawl continues with exactly the rest of the frontier and
otherwise unchanged state. -/
theorem fetch_error_nonfatal (fetch : Url → Option Page) (patterns : List Category)
    (seedHost : String) (maxDepth fuel : Nat) (u : Url) (d : Nat)
    (rest : List (Url × Nat)) (visited fetched : List Url)
    (enqueued : List (Url × Nat)) (results : List (Nat × String × List String))
    (hnv : u ∉ visited) (hfu : fetch u = none) :
    crawlLoop fetch patterns seedHost maxDepth (fuel + 1)
        ⟨(u, d) :: rest, visited, fetched, enqueued, results⟩
      = crawlLoop fetch patterns seedHost maxDepth fuel
        ⟨rest, u :: visited, fetched ++ [u], enqueued, results⟩ := by
  rw [crawlLoop]
  simp [hnv, crawlStep, hfu]

theorem addMatch_nodup {acc : List String} {m : String} (h : acc.Nodup) :
    (addMatch acc m).Nodup := by
  unfold addMatch
  by_cases hm : m ∈ acc
  · simp only [hm, if_true]
    exact h
  · simp only [hm, if_false]
    exact nodup_append_single h hm

theorem mergeCategory_nodup (ms : List String) :
    ∀ acc : List String, acc.Nodup → (mergeCategory acc ms).Nodup := by
  induction ms with
  | nil => intro acc h; exact h
  | cons m ms ih => intro acc h; exact ih (addMatch acc m) (addMatch_nodup h)

theorem mergeResults_nodup :
    ∀ (acc newr : List (Nat × String × List String)),
      (∀ e ∈ acc, e.2.2.Nodup) → ∀ e ∈ mergeResults acc newr, e.2.2.Nodup := by
  intro acc
  induction acc with
  | nil =>
      intro newr _ e he
      simp [mergeResults] at he
  | cons a acc ih =>
      intro newr h e he
      cases newr with
      | nil => simp [mergeResults] at he
      | cons n newr =>
          simp only [mergeResults, List.zipWith_cons_cons, List.mem_cons] at he
          rcases he with he | he
          · rw [he]
            exact mergeCategory_nodup _ _ (h a (List.mem_cons_self a acc))
          · exact ih newr (fun x hx => h x (List.mem_cons_of_mem a hx)) e he

/-- The crawl loop keeps every category's accumulated match list free of
duplicates. -/
theorem crawlLoop_results_nodup (fetch : Url → Option Page) (patterns : List Category)
    (seedHost : String) (maxDepth : Nat) (fuel : Nat) :
    ∀ st : CrawlState, (∀ e ∈ st.results, e.2.2.Nodup) →
      ∀ e ∈ (crawlLoop fetch patterns seedHost maxDepth fuel st).results, e.2.2.Nodup := by
  induction fuel with
  | zero => intro st h; exact h
  | succ fuel ih =>
      intro st h
      rw [crawlLoop]
      match hfr : st.frontier with
      | [] => exact h
      | (url, depth) :: rest =>
          by_cases hv : url ∈ st.visited
          · simp only [hv, if_true]
            exact ih _ h
          · simp only [hv, if_false]
            apply ih
            unfold crawlStep
            cases hfu : fetch url with
            | none => simpa using h
            | some page =>
                simp only
                exact mergeResults_nodup _ _ h

/-- C8: the body "contact: a@b.com and a@b.com" produces two raw pattern
matches, yet the accumulated email category of the crawl holds exactly one
entry; and in general no category of any run's accumulated results contains a
duplicate entry. -/
theorem dedup_per_category :
    emailFindAll "contact: a@b.com and a@b.com" = ["a@b.com", "a@b.com"] ∧
    (crawl_website scenarioFetch EXTRACTION_PATTERNS scenarioSeed 0).results
      = [(2, "Email Addresses", ["a@b.com"])] ∧
    ∀ (fetch : Url → Option Page) (patterns : List Category) (seed : Url) (maxDepth : Nat),
      ∀ e ∈ (crawl_website fetch patterns seed maxDepth).results, e.2.2.Nodup := by
  refine ⟨by decide, by decide, ?_⟩
  intro fetch patterns seed maxDepth e he
  refine crawlLoop_results_nodup fetch patterns seed.host maxDepth MAX_CRAWL_STEPS _ ?_ e he
  intro x hx
  rcases List.mem_map.mp hx with ⟨c, _, hc⟩
  rw [← hc]
  exact List.nodup_nil

/-- C8 witness: the email category entry of the scenario run is
duplicate-free. -/
theorem dedup_per_category_witness :
    ((2, "Email Addresses", ["a@b.com"]) : Nat × String × List String).2.2.Nodup :=
  dedup_per_category.2.2 scenarioFetch EXTRACTION_PATTERNS scenarioSeed 0
    (2, "Email Addresses", ["a@b.com"]) (by decide)

/-- C4 witness: a concrete failed fetch is skipped and the crawl continues. -/
theorem fetch_error_nonfatal_witness :
    (Url.mk "target.com" "/dead") ∉ ([] : List Url) ∧
      crawlLoop (fun _ => none) EXTRACTION_PATTERNS "target.com" 3 1
          ⟨[(Url.mk "target.com" "/dead", 1)], [], [], [], []⟩
        = crawlLoop (fun _ => none) EXTRACTION_PATTERNS "target.com" 3 0
          ⟨[], [Url.mk "target.com" "/dead"], [Url.mk "target.com" "/dead"], [], []⟩ :=
  ⟨by decide,
   fetch_error_nonfatal (fun _ => none) EXTRACTION_PATTERNS "target.com" 3 0
     (Url.mk "target.com" "/dead") 1 [] [] [] [] [] (by decide) rfl⟩

end Duck

namespace Duck

theorem find?_append_none {α : Type} (p : α → Bool) {l1 : List α} (l2 : List α)
    (h : l1.find? p = none) : (l1 ++ l2).find? p = l2.find? p := by
  induction l1 with
  | nil => rfl
  | cons a l ih =>
      cases hpa : p a with
      | true =>
          rw [List.find?_cons_of_pos _ hpa] at h
          exact absurd h (by simp)
      | false =>
          rw [List.find?_cons_of_neg _ (by simp [hpa])] at h
          rw [List.cons_append, List.find?_cons_of_neg _ (by simp [hpa])]
          exact ih h

theorem find?_filter_ne_none (l : List (FsPath × String)) (p : FsPath) :
    (l.filter (fun e => decide (e.1 ≠ p))).find? (fun e => decide (e.1 = p)) = none := by
  induction l with
  | nil => rfl
  | cons a l ih =>
      by_cases h : a.1 = p
      · rw [List.filter_cons, if_neg (by simp [h])]
        exact ih
      · rw [List.filter_cons, if_pos (by simp [h]),
          List.find?_cons_of_neg _ (by simp [h])]
        exact ih

theorem fsGet_fsSet (fs : FS) (p : FsPath) (c : String) :
    fsGet (fsSet fs p c) p = some c := by
  unfold fsGet fsSet
  simp only
  rw [find?_append_none _ _ (find?_filter_ne_none fs.files p)]
  simp [List.find?]

theorem validate_arguments_ok (cfgOk : Bool) (fs : FS) (out : FsPath)
    (hc : cfgOk = true) (hdir : out.dir ≠ "" → out.dir ∈ fs.existingDirs)
    (hw : out ∈ fs.appendable) :
    validate_arguments cfgOk fs out
      = .ok { fs with
          files := if (fsGet fs out).isSome then fs.files else fs.files ++ [(out, "")] } := by
  subst hc
  have h2 : ¬ (out.dir ≠ "" ∧ out.dir ∉ fs.existingDirs) := fun h => h.2 (hdir h.1)
  unfold validate_arguments
  rw [if_neg (by simp), if_neg h2, if_neg (not_not.mpr hw)]

/-- C5: a named output directory that does not exist makes the process exit
with the filesystem-failure code 3 with no crawl attempted; an output path
that cannot be opened for appending exits with the same code 3; the
configuration-failure run exits with code 1, the runtime-failure code is 4,
and 3 is distinct from both. -/
theorem output_path_failure_exit (cfgOk : Bool) (fs : FS) (args : Args) (ctime : String)
    (outcome : CrawlOutcome) (hc : cfgOk = true) :
    ((args.output.dir ≠ "" ∧ args.output.dir ∉ fs.existingDirs) →
        (mainRun cfgOk fs args ctime outcome).exitCode = 3 ∧
        (mainRun cfgOk fs args ctime outcome).crawlAttempted = false) ∧
    ((args.output.dir ≠ "" → args.output.dir ∈ fs.existingDirs) →
      args.output ∉ fs.appendable →
        (mainRun cfgOk fs args ctime outcome).exitCode = 3 ∧
        (mainRun cfgOk fs args ctime outcome).crawlAttempted = false) ∧
    (mainRun false fs args ctime outcome).exitCode = 1 ∧
    ((3 : Nat) ≠ 1 ∧ (3 : Nat) ≠ 4) := by
  subst hc
  refine ⟨?_, ?_, ?_, by decide⟩
  · intro hbad
    unfold mainRun validate_arguments
    rw [if_neg (by simp), if_pos hbad]
    exact ⟨rfl, rfl⟩
  · intro hdir hnw
    have h2 : ¬ (args.output.dir ≠ "" ∧ args.output.dir ∉ fs.existingDirs) :=
      fun h => h.2 (hdir h.1)
    unfold mainRun validate_arguments
    rw [if_neg (by simp), if_neg h2, if_pos hnw]
    exact ⟨rfl, rfl⟩
  · unfold mainRun validate_arguments
    rw [if_pos (by simp)]

/-- C5 witness: a concrete run whose output directory is missing exits with
code 3 and never reaches the crawl. -/
theorem output_path_failure_exit_witness :
    (mainRun true demoFS demoBadArgs demoCtime (.ok "" [])).exitCode = 3 ∧
    (mainRun true demoFS demoBadArgs demoCtime (.ok "" [])).crawlAttempted = false :=
  (output_path_failure_exit true demoFS demoBadArgs demoCtime (.ok "" []) rfl).1
    (by decide)

/-- C7: when the crawl stage dies with an uncaught exception, the run exits
with the dedicated code 4, the error is reported on the console, and the
output file still holds everything the crawl wrote before the error,
followed by the error line (`time.ctime()` strings are 24 characters). -/
theorem runtime_error_flush (fs : FS) (args : Args) (ctime written e : String)
    (hdir : args.output.dir ≠ "" → args.output.dir ∈ fs.existingDirs)
    (hw : args.output ∈ fs.appendable) (hctime : ctime.length = 24) :
    (mainRun true fs args ctime (.err written e)).exitCode = 4 ∧
    Msg.unexpectedError e ∈ (mainRun true fs args ctime (.err written e)).console ∧
    fsGet (mainRun true fs args ctime (.err written e)).fs args.output
      = some (reportHeader ctime args.url args.depth ++ written ++ runtimeErrorLine e) := by
  have hval := validate_arguments_ok true fs args.output rfl hdir hw
  have hbig : ¬ (reportHeader ctime args.url args.depth ++ written
      ++ runtimeErrorLine e).length < 100 := by
    simp only [reportHeader, runtimeErrorLine, String.length_append]
    have l1 : ("Started analysis at: " : String).length = 21 := rfl
    have l2 : ("\n" : String).length = 1 := rfl
    have l3 : ("Target: " : String).length = 8 := rfl
    have l4 : (" (Depth: " : String).length = 9 := rfl
    have l5 : (")\n" : String).length = 2 := rfl
    have l6 : ("\nAn unexpected runtime error occurred: " : String).length = 39 := rfl
    omega
  refine ⟨?_, ?_, ?_⟩
  · simp only [mainRun, hval]
  · simp only [mainRun, hval]
    simp
  · simp only [mainRun, hval]
    rw [if_neg hbig]
    exact fsGet_fsSet _ _ _

/-- C7 witness: a concrete run that dies after writing part of the data. -/
theorem runtime_error_flush_witness :
    (mainRun true demoFS demoArgs demoCtime (.err "halfway-data\n" "boom")).exitCode = 4 ∧
    Msg.unexpectedError "boom"
      ∈ (mainRun true demoFS demoArgs demoCtime (.err "halfway-data\n" "boom")).console ∧
    fsGet (mainRun true demoFS demoArgs demoCtime (.err "halfway-data\n" "boom")).fs
        demoArgs.output
      = some (reportHeader demoCtime demoArgs.url demoArgs.depth ++ "halfway-data\n"
          ++ runtimeErrorLine "boom") :=
  runtime_error_flush demoFS demoArgs demoCtime "halfway-data\n" "boom"
    (by decide) (by decide) (by decide)

/-- C9: a passing validation with no file at the output path creates an empty
file there (the append-mode writability probe), before any crawl; and the
path still holds a file at the end of a run that dies with an uncaught
exception. -/
theorem validation_creates_file (fs : FS) (args : Args) (ctime written e : String)
    (hdir : args.output.dir ≠ "" → args.output.dir ∈ fs.existingDirs)
    (hw : args.output ∈ fs.appendable) (habsent : fsGet fs args.output = none) :
    validate_arguments true fs args.output
        = .ok { fs with files := fs.files ++ [(args.output, "")] } ∧
    fsGet { fs with files := fs.files ++ [(args.output, "")] } args.output = some "" ∧
    (fsGet (mainRun true fs args ctime (.err written e)).fs args.output).isSome = true := by
  have hval := validate_arguments_ok true fs args.output rfl hdir hw
  have hfind : fs.files.find? (fun x => decide (x.1 = args.output)) = none := by
    unfold fsGet at habsent
    exact Option.map_eq_none'.mp habsent
  refine ⟨?_, ?_, ?_⟩
  · rw [hval, habsent]
    rfl
  · unfold fsGet
    simp only
    rw [find?_append_none _ _ hfind]
    simp [List.find?]
  · simp only [mainRun, hval]
    by_cases hs : (reportHeader ctime args.url args.depth ++ written
        ++ runtimeErrorLine e).length < 100
    · rw [if_pos hs, fsGet_fsSet]
      rfl
    · rw [if_neg hs, fsGet_fsSet]
      rfl

/-- C9 witness: the concrete demo filesystem gains an empty file at the
output path during validation, and the file survives a failing run. -/
theorem validation_creates_file_witness :
    validate_arguments true demoFS demoOut
        = .ok { demoFS with files := demoFS.files ++ [(demoOut, "")] } ∧
    fsGet { demoFS with files := demoFS.files ++ [(demoOut, "")] } demoOut = some "" ∧
    (fsGet (mainRun true demoFS demoArgs demoCtime (.err "" "boom")).fs demoOut).isSome
      = true :=
  validation_creates_file demoFS demoArgs demoCtime "" "boom"
    (by decide) (by decide) (by decide)

/-- C10: whenever the output file handle was opened — that is, whenever
validation passed — the finally block prints the saved-and-finalized
message, also on the uncaught-error path, where the same run exits with
code 4. -/
theorem finally_prints_saved (fs : FS) (args : Args) (ctime : String)
    (outcome : CrawlOutcome)
    (hdir : args.output.dir ≠ "" → args.output.dir ∈ fs.existingDirs)
    (hw : args.output ∈ fs.appendable) :
    (mainRun true fs args ctime outcome).fileOpened = true ∧
    Msg.savedFinalized ∈ (mainRun true fs args ctime outcome).console ∧
    ∀ written e, outcome = .err written e →
      (mainRun true fs args ctime outcome).exitCode = 4 := by
  have hval := validate_arguments_ok true fs args.output rfl hdir hw
  cases outcome with
  | ok written results =>
      refine ⟨?_, ?_, ?_⟩
      · simp only [mainRun, hval]
      · simp only [mainRun, hval]
        simp
      · intro w e h
        exact absurd h (by simp)
  | err written e =>
      refine ⟨?_, ?_, ?_⟩
      · simp only [mainRun, hval]
      · simp only [mainRun, hval]
        simp
      · intro w e h
        simp only [mainRun, hval]

/-- C10 witness: a failed concrete run still prints the success message and
exits with code 4. -/
theorem finally_prints_saved_witness :
    (mainRun true demoFS demoArgs demoCtime (.err "" "boom")).fileOpened = true ∧
    Msg.savedFinalized ∈ (mainRun true demoFS demoArgs demoCtime (.err "" "boom")).console ∧
    ∀ written e, (CrawlOutcome.err "" "boom") = .err written e →
      (mainRun true demoFS demoArgs demoCtime (.err "" "boom")).exitCode = 4 :=
  finally_prints_saved demoFS demoArgs demoCtime (.err "" "boom") (by decide) (by decide)

/-- C6 counterexample: a concrete run that completes with zero matches in
every category, yet whose output file holds the regular report (headers and
a none-found notice) and not the minimal fallback report text. -/
theorem zero_match_fallback_counterexample :
    (mainRun true demoFS demoArgs demoCtime
        (.ok "" [(2, "Email Addresses", [])])).exitCode = 0 ∧
    fsGet (mainRun true demoFS demoArgs demoCtime
        (.ok "" [(2, "Email Addresses", [])])).fs demoArgs.output
      = some (reportHeader demoCtime demoArgs.url demoArgs.depth ++ ""
          ++ renderReport [(2, "Email Addresses", [])]) ∧
    ¬ ((fallbackReport demoArgs.url).data <:+:
        (reportHeader demoCtime demoArgs.url demoArgs.depth ++ ""
          ++ renderReport [(2, "Email Addresses", [])]).data) := by
  have hval := validate_arguments_ok true demoFS demoArgs.output rfl (by decide) (by decide)
  have hbig : ¬ (reportHeader demoCtime demoArgs.url demoArgs.depth ++ ""
      ++ renderReport [(2, "Email Addresses", [])]).length < 100 := by decide
  refine ⟨?_, ?_, ?_⟩
  · simp only [mainRun, hval]
  · simp only [mainRun, hval]
    rw [if_neg hbig]
    exact fsGet_fsSet _ _ _
  · intro h
    have hle := h.length_le
    revert hle
    decide

/-- C6 amended: after a run completing with zero matches in every category
the output file exists and is non-empty; it holds the minimal fallback
report text exactly when the regular report falls under the 100-byte
threshold, and the regular report with its none-found notices otherwise. -/
theorem zero_match_report_nonempty (fs : FS) (args : Args) (ctime written : String)
    (results : List (Nat × String × List String))
    (hdir : args.output.dir ≠ "" → args.output.dir ∈ fs.existingDirs)
    (hw : args.output ∈ fs.appendable)
    (_hempty : ∀ x ∈ results, x.2.2 = ([] : List String)) :
    ∃ c, fsGet (mainRun true fs args ctime (.ok written results)).fs args.output = some c ∧
      c.length ≠ 0 ∧
      ((reportHeader ctime args.url args.depth ++ written ++ renderReport results).length < 100
        → c = fallbackReport args.url) ∧
      (100 ≤ (reportHeader ctime args.url args.depth ++ written
          ++ renderReport results).length
        → c = reportHeader ctime args.url args.depth ++ written ++ renderReport results) := by
  have hval := validate_arguments_ok true fs args.output rfl hdir hw
  unfold mainRun
  rw [hval]
  dsimp only
  by_cases hs : (reportHeader ctime args.url args.depth ++ written
      ++ renderReport results).length < 100
  · rw [if_pos hs]
    refine ⟨fallbackReport args.url, fsGet_fsSet _ _ _, ?_, fun _ => rfl,
      fun hge => absurd hs (by omega)⟩
    simp only [fallbackReport, String.length_append]
    have l1 : ("XERON CRAWLER REPORT\n\n" : String).length = 22 := rfl
    omega
  · rw [if_neg hs]
    refine ⟨_, fsGet_fsSet _ _ _, ?_, fun hlt => absurd hlt hs, fun _ => rfl⟩
    omega

/-- C6 amended witness: the zero-match demo run yields a file satisfying the
amended description. -/
theorem zero_match_report_nonempty_witness :
    ∃ c, fsGet (mainRun true demoFS demoArgs demoCtime
        (.ok "" [(2, "Email Addresses", [])])).fs demoArgs.output = some c ∧
      c.length ≠ 0 ∧
      ((reportHeader demoCtime demoArgs.url demoArgs.depth ++ ""
          ++ renderReport [(2, "Email Addresses", [])]).length < 100
        → c = fallbackReport demoArgs.url) ∧
      (100 ≤ (reportHeader demoCtime demoArgs.url demoArgs.depth ++ ""
          ++ renderReport [(2, "Email Addresses", [])]).length
        → c = reportHeader demoCtime demoArgs.url demoArgs.depth ++ ""
            ++ renderReport [(2, "Email Addresses", [])]) :=
  zero_match_report_nonempty demoFS demoArgs demoCtime "" [(2, "Email Addresses", [])]
    (by decide) (by decide) (by decide)

end Duck
